import Mathlib

/-!
Verification of the raster-to-visualization pipeline of `print_dem`
(`src/main.py`, `src/depth_velocity_plot.py`, `src/slope_plot.py`),
as a shallow embedding: machine floats are modelled by exact rationals
(`ℚ`) or reals (`ℝ`), NaN propagation by `Option`, and the relevant
slices of each script by executable Lean functions.
-/

namespace PrintDem

/-- Decimation factor of `visualizar_amenaza_continua`
(`depth_velocity_plot.py` lines 77-80): scale is `max(w, h) // 2000`
when either dimension strictly exceeds the budget, else 1. -/
def scale_dv (w h B : ℕ) : ℕ :=
  if B < w ∨ B < h then max w h / B else 1

/-- Resampled `(height, width)` of the depth/velocity variant
(`depth_velocity_plot.py` line 82): integer division by the factor. -/
def new_shape_dv (w h B : ℕ) : ℕ × ℕ :=
  (h / scale_dv w h B, w / scale_dv w h B)

/-- Decimation factor of `visualizar_dem_con_satelite` (`main.py`
lines 43-46) and `visualizar_pendiente_con_satelite_suave`
(`slope_plot.py` lines 33-35): same factor, but triggered only past a
10 percent safety margin (`factor_escala_max * 1.1`). -/
def scale_main (w h B : ℕ) : ℕ :=
  if (B : ℚ) * 1.1 < (w : ℚ) ∨ (B : ℚ) * 1.1 < (h : ℚ) then max w h / B else 1

/-- Resampled `(height, width)` of the elevation variant
(`main.py` lines 49-50). -/
def new_shape_main (w h B : ℕ) : ℕ × ℕ :=
  (h / scale_main w h B, w / scale_main w h B)

/-- Resampled `(height, width)` of the slope variant
(`slope_plot.py` lines 38-39), clamped to at least 1 per axis. -/
def new_shape_slope (w h B : ℕ) : ℕ × ℕ :=
  (max 1 (h / scale_main w h B), max 1 (w / scale_main w h B))

/-- Dividing `m` by its own quotient `m / B` stays below `2 * B`:
the decimated dimension can overshoot the budget, but never reach
twice the budget. -/
theorem div_div_self_lt_two_mul (B m : ℕ) (hB : 0 < B) (hm : B < m) :
    m / (m / B) < 2 * B := by
  have hq : 1 ≤ m / B := (Nat.one_le_div_iff hB).mpr (le_of_lt hm)
  have hmod : B * (m / B) + m % B = m := Nat.div_add_mod m B
  have hlt : m % B < B := Nat.mod_lt _ hB
  have hBq : B ≤ B * (m / B) := Nat.le_mul_of_pos_right B hq
  have key : m < 2 * B * (m / B) := by
    have : m < B * (m / B) + B := by omega
    calc m < B * (m / B) + B := this
    _ ≤ B * (m / B) + B * (m / B) := by omega
    _ = 2 * B * (m / B) := by ring
  exact (Nat.div_lt_iff_lt_mul (lt_of_lt_of_le Nat.one_pos hq)).mpr key

theorem max_div_le (w h s : ℕ) : max (h / s) (w / s) ≤ max w h / s :=
  max_le (Nat.div_le_div_right (le_max_right w h))
    (Nat.div_le_div_right (le_max_left w h))

/-- C1 (counterexample): a 2500 by 1 source raster exceeds the pixel
budget 2000, yet the depth/velocity variant computes scale
`2500 / 2000 = 1` and keeps the width at 2500, above the budget. -/
theorem C1_counterexample :
    ¬ max (new_shape_dv 2500 1 2000).1 (new_shape_dv 2500 1 2000).2 ≤ 2000 := by
  decide

/-- C1 (amended): for every source raster and positive pixel budget,
the resampled grid's larger dimension is strictly below twice the
budget, in both the depth/velocity variant and the elevation variant. -/
theorem C1_resampled_dimension_bound (w h B : ℕ) (hB : 0 < B) :
    max (new_shape_dv w h B).1 (new_shape_dv w h B).2 < 2 * B ∧
    max (new_shape_main w h B).1 (new_shape_main w h B).2 < 2 * B := by
  constructor
  · unfold new_shape_dv scale_dv
    by_cases hc : B < w ∨ B < h
    · simp only [if_pos hc]
      have hm : B < max w h := by
        rcases hc with hc | hc
        · exact lt_of_lt_of_le hc (le_max_left w h)
        · exact lt_of_lt_of_le hc (le_max_right w h)
      exact lt_of_le_of_lt (max_div_le w h _) (div_div_self_lt_two_mul B _ hB hm)
    · simp only [if_neg hc]
      push_neg at hc
      simp only [Nat.div_one]
      omega
  · unfold new_shape_main scale_main
    by_cases hc : (B : ℚ) * 1.1 < (w : ℚ) ∨ (B : ℚ) * 1.1 < (h : ℚ)
    · simp only [if_pos hc]
      have hBQ : (0 : ℚ) < B := by exact_mod_cast hB
      have hm : B < max w h := by
        have hmono : (B : ℚ) ≤ (B : ℚ) * 1.1 := by nlinarith
        rcases hc with hc | hc
        · have hw : (B : ℚ) < (w : ℚ) := lt_of_le_of_lt hmono hc
          exact lt_of_lt_of_le (by exact_mod_cast hw) (le_max_left w h)
        · have hh : (B : ℚ) < (h : ℚ) := lt_of_le_of_lt hmono hc
          exact lt_of_lt_of_le (by exact_mod_cast hh) (le_max_right w h)
      exact lt_of_le_of_lt (max_div_le w h _) (div_div_self_lt_two_mul B _ hB hm)
    · simp only [if_neg hc]
      push_neg at hc
      have hBQ : (0 : ℚ) < B := by exact_mod_cast hB
      have hw : (w : ℚ) < 2 * B := by linarith [hc.1]
      have hh : (h : ℚ) < 2 * B := by linarith [hc.2]
      have hw2 : w < 2 * B := by exact_mod_cast hw
      have hh2 : h < 2 * B := by exact_mod_cast hh
      simp only [Nat.div_one]
      omega

/-- C1 (witness): at budget 2000 the 2500 by 1 raster resamples to a
larger dimension strictly below 4000. -/
theorem C1_witness :
    0 < 2000 ∧
    max (new_shape_dv 2500 1 2000).1 (new_shape_dv 2500 1 2000).2 < 2 * 2000 :=
  ⟨by decide, (C1_resampled_dimension_bound 2500 1 2000 (by decide)).1⟩

/-- Validity masking of `visualizar_amenaza_continua`
(`depth_velocity_plot.py` lines 95-96): a cell is masked (invalid) when
its value is at most 0.001 (`np.ma.masked_less_equal(data, 0.001)`) or
equals the nodata sentinel (`np.ma.masked_equal(..., nodata)`). -/
def amenaza_invalid (nodata v : ℚ) : Bool :=
  decide (v ≤ 0.001) || decide (v = nodata)

/-- C2 (counterexample): with nodata -9999, the value 0.0005 is strictly
positive and different from nodata, yet the hazard variant masks it as
invalid, because the masking threshold is 0.001, not 0. -/
theorem C2_counterexample :
    amenaza_invalid (-9999) 0.0005 = true ∧
    ¬ ((0.0005 : ℚ) = -9999 ∨ (0.0005 : ℚ) ≤ 0) := by
  constructor
  · simp only [amenaza_invalid, Bool.or_eq_true, decide_eq_true_eq]
    left
    norm_num
  · push_neg
    exact ⟨by norm_num, by norm_num⟩

/-- C2 (amended): in the depth/velocity variant a cell is marked
invalid exactly when its value equals the nodata sentinel or is at most
the near-zero epsilon 0.001; every other value is valid. -/
theorem C2_validity_mask (nodata v : ℚ) :
    amenaza_invalid nodata v = true ↔ (v = nodata ∨ v ≤ 0.001) := by
  simp [amenaza_invalid, or_comm]

/-- Continuous color-scale configuration returned by
`obtener_configuracion_continua` (`depth_velocity_plot.py` lines 22-63). -/
structure ContConfig where
  colors : List String
  nodes : List ℚ
  vmaxViz : ℚ
  labelBar : String
  title : String
deriving Repr, DecidableEq

/-- Shallow embedding of `obtener_configuracion_continua`
(`depth_velocity_plot.py` lines 22-63): the velocity branch is taken
when `tipo_mapa == 'v'`, any other kind falls to the depth branch; the
top of the visual scale is `max(data_max, 2.5)` for velocity and
`max(data_max, 2.0)` for depth. -/
def obtener_configuracion_continua (tipoMapa : Char) (dataMax : ℚ) : ContConfig :=
  if tipoMapa = 'v' then
    { colors := ["#e1f5fe", "#00e5ff", "#00c853", "#ffd600", "#d50000", "#4a148c"]
      nodes := [0, 0.2, 0.4, 0.6, 0.8, 1]
      vmaxViz := max dataMax 2.5
      labelBar := "Velocidad de Flujo (m/s)"
      title := "Mapa de Velocidad (Continuo)" }
  else
    { colors := ["#e0f7fa", "#29b6f6", "#fff176", "#ff9800", "#b71c1c"]
      nodes := [0, 0.25, 0.5, 0.75, 1]
      vmaxViz := max dataMax 2.0
      labelBar := "Profundidad de Inundación (m)"
      title := "Mapa de Profundidad (Continuo)" }

/-- C3: for both continuous map kinds the top of the visual color scale
is the maximum of the observed data maximum and the domain floor
(2.5 m/s for velocity, 2.0 m for depth); below the floor the scale is
pinned at the floor, at or above the floor it follows the data. -/
theorem C3_visual_max (m : ℚ) :
    ((obtener_configuracion_continua 'v' m).vmaxViz = max m 2.5 ∧
     (obtener_configuracion_continua 'p' m).vmaxViz = max m 2.0) ∧
    (m ≤ 2.5 → (obtener_configuracion_continua 'v' m).vmaxViz = 2.5) ∧
    (2.5 ≤ m → (obtener_configuracion_continua 'v' m).vmaxViz = m) ∧
    (m ≤ 2.0 → (obtener_configuracion_continua 'p' m).vmaxViz = 2.0) ∧
    (2.0 ≤ m → (obtener_configuracion_continua 'p' m).vmaxViz = m) := by
  refine ⟨⟨rfl, rfl⟩, fun h => ?_, fun h => ?_, fun h => ?_, fun h => ?_⟩ <;>
    simp [obtener_configuracion_continua, max_eq_left, max_eq_right, h]

/-- C3 (witness): an observed maximum of 1 m/s, below the velocity
floor, yields a visual top of scale of exactly 2.5 m/s. -/
theorem C3_witness :
    (1 : ℚ) ≤ 2.5 ∧ (obtener_configuracion_continua 'v' 1).vmaxViz = 2.5 :=
  ⟨by norm_num, (C3_visual_max 1).2.1 (by norm_num)⟩

/-- Nodata sentinel used by `visualizar_dem_con_satelite` (`main.py`
line 63): the source value when present, else -99999.0. -/
def main_nodata (srcNodata : Option ℚ) : ℚ := srcNodata.getD (-99999)

/-- Nodata sentinel used by `visualizar_amenaza_continua`
(`depth_velocity_plot.py` line 88): the source value when present,
else -9999.0. -/
def amenaza_nodata (srcNodata : Option ℚ) : ℚ := srcNodata.getD (-9999)

/-- Nodata sentinel used by `visualizar_pendiente_con_satelite_suave`
(`slope_plot.py` line 48): the source value when present, else -99999.0. -/
def slope_nodata (srcNodata : Option ℚ) : ℚ := srcNodata.getD (-99999)

/-- C10: when the source raster carries no nodata value, the elevation
and slope variants substitute -99999.0 and the depth/velocity variant
substitutes -9999.0; when the source has one, it is used unchanged. -/
theorem C10_default_nodata :
    main_nodata none = -99999 ∧
    slope_nodata none = -99999 ∧
    amenaza_nodata none = -9999 ∧
    ∀ v : ℚ, main_nodata (some v) = v ∧
      slope_nodata (some v) = v ∧ amenaza_nodata (some v) = v :=
  ⟨rfl, rfl, rfl, fun _ => ⟨rfl, rfl, rfl⟩⟩

/-- Python `str.strip`: drop the characters satisfying `p` from both
ends of the character list. -/
def py_strip (p : Char → Bool) (cs : List Char) : List Char :=
  ((cs.dropWhile p).reverse.dropWhile p).reverse

/-- Helper for Python `str.replace`: `k` characters remain to be
skipped (they belong to an already-replaced occurrence), then scan left
to right replacing each non-overlapping occurrence of `pat`. -/
def py_replace_aux (pat rep : List Char) : ℕ → List Char → List Char
  | _, [] => []
  | k + 1, _ :: cs => py_replace_aux pat rep k cs
  | 0, c :: cs =>
    if pat ≠ [] ∧ pat.isPrefixOf (c :: cs) then
      rep ++ py_replace_aux pat rep (pat.length - 1) cs
    else
      c :: py_replace_aux pat rep 0 cs

/-- Python `s.replace(pat, rep)`: replace every non-overlapping
occurrence of `pat`, scanning left to right. -/
def py_replace (pat rep s : String) : String :=
  String.mk (py_replace_aux pat.data rep.data 0 s.data)

/-- Python `s.strip()`: remove surrounding whitespace. -/
def py_trim (s : String) : String :=
  String.mk (py_strip Char.isWhitespace s.data)

/-- Python `s.strip(c)` for a single character `c`. -/
def py_strip_char (c : Char) (s : String) : String :=
  String.mk (py_strip (fun x => x = c) s.data)

/-- Python `s.endswith(suf)`. -/
def py_ends_with (suf s : String) : Bool :=
  suf.data.isSuffixOf s.data

/-- Python `s.lower()` (ASCII case folding). -/
def py_lower (s : String) : String :=
  String.mk (s.data.map Char.toLower)

/-- Default output name of `visualizar_amenaza_continua`
(`depth_velocity_plot.py` lines 160-162):
`mapa_<sufijo>_<stem>.png` with `sufijo` `velocidad` for `'v'` and
`profundidad` otherwise. -/
def amenaza_auto_name (tipoMapa : Char) (stem : String) : String :=
  "mapa_" ++ (if tipoMapa = 'v' then "velocidad" else "profundidad") ++ "_" ++ stem ++ ".png"

/-- Output naming of `visualizar_amenaza_continua`
(`depth_velocity_plot.py` lines 155-162): a truthy explicit name is
stripped of surrounding whitespace, every occurrence of `.png` is
removed, and `.png` is appended; otherwise the default name is used. -/
def amenaza_output_name (nombre : Option String) (tipoMapa : Char) (stem : String) : String :=
  match nombre with
  | some n =>
    if n = "" then amenaza_auto_name tipoMapa stem
    else py_replace ".png" "" (py_trim n) ++ ".png"
  | none => amenaza_auto_name tipoMapa stem

/-- Output naming of `visualizar_pendiente_con_satelite_suave`
(`slope_plot.py` lines 141-145): a truthy explicit name is stripped of
surrounding whitespace, double quotes and single quotes; the default
name is `mapa_pendiente_<stem>`; `.png` is appended unless the name
already ends with `.png` case-insensitively. -/
def slope_base_name (nombre : Option String) (stem : String) : String :=
  match nombre with
  | some n =>
    if n = "" then "mapa_pendiente_" ++ stem
    else py_strip_char (Char.ofNat 39) (py_strip_char (Char.ofNat 34) (py_trim n))
  | none => "mapa_pendiente_" ++ stem

def slope_output_name (nombre : Option String) (stem : String) : String :=
  if py_ends_with ".png" (py_lower (slope_base_name nombre stem)) = true then
    slope_base_name nombre stem
  else slope_base_name nombre stem ++ ".png"

/-- Observable effects of a run, in program order. -/
inductive RunEvent where
  | draw : RunEvent
  | basemap : RunEvent
  | saveImage : String → RunEvent
deriving DecidableEq, Repr

/-- Event trace of `visualizar_amenaza_continua` after the raster has
been read (`depth_velocity_plot.py` lines 94-170): when every cell is
masked the function returns at line 100, before the plot is drawn
(line 120), the basemap is fetched (line 137) and the image is saved
(line 165); otherwise it draws, fetches the basemap and saves exactly
one image. -/
def amenaza_trace (data : List ℚ) (nodata : ℚ) (tipoMapa : Char)
    (nombre : Option String) (stem : String) : List RunEvent :=
  if data.all (fun v => amenaza_invalid nodata v) then []
  else [RunEvent.draw, RunEvent.basemap,
        RunEvent.saveImage (amenaza_output_name nombre tipoMapa stem)]

/-- The files a trace writes. -/
def output_files (tr : List RunEvent) : List String :=
  tr.filterMap fun e =>
    match e with
    | RunEvent.saveImage n => some n
    | _ => none

/-- C4: when every cell of the depth/velocity raster is invalid after
masking, the run's trace is empty — no drawing, no basemap fetch, no
file written; in particular a velocity raster whose every cell equals
exactly 0 aborts with zero output files. -/
theorem C4_empty_domain_aborts :
    (∀ (data : List ℚ) (nodata : ℚ) (tipoMapa : Char) (nombre : Option String)
      (stem : String), (∀ v ∈ data, amenaza_invalid nodata v = true) →
      amenaza_trace data nodata tipoMapa nombre stem = [] ∧
      output_files (amenaza_trace data nodata tipoMapa nombre stem) = []) ∧
    (∀ (data : List ℚ) (nodata : ℚ) (nombre : Option String) (stem : String),
      (∀ v ∈ data, v = (0 : ℚ)) →
      amenaza_trace data nodata 'v' nombre stem = [] ∧
      output_files (amenaza_trace data nodata 'v' nombre stem) = []) := by
  have habort : ∀ (data : List ℚ) (nodata : ℚ) (tipoMapa : Char)
      (nombre : Option String) (stem : String),
      (∀ v ∈ data, amenaza_invalid nodata v = true) →
      amenaza_trace data nodata tipoMapa nombre stem = [] := by
    intro data nodata tipoMapa nombre stem hinv
    unfold amenaza_trace
    rw [if_pos (List.all_eq_true.mpr hinv)]
  refine ⟨fun data nodata tipoMapa nombre stem hinv => ?_,
    fun data nodata nombre stem hzero => ?_⟩
  · have h := habort data nodata tipoMapa nombre stem hinv
    exact ⟨h, by rw [h]; rfl⟩
  · have hinv : ∀ v ∈ data, amenaza_invalid nodata v = true := by
      intro v hv
      rw [hzero v hv]
      simp only [amenaza_invalid, Bool.or_eq_true, decide_eq_true_eq]
      left
      norm_num
    have h := habort data nodata 'v' nombre stem hinv
    exact ⟨h, by rw [h]; rfl⟩

/-- C4 (witness): a two-cell all-zero velocity raster produces an empty
trace and no output files. -/
theorem C4_witness :
    (∀ v ∈ [(0 : ℚ), 0], v = (0 : ℚ)) ∧
    amenaza_trace [0, 0] (-9999) 'v' none "x" = [] ∧
    output_files (amenaza_trace [0, 0] (-9999) 'v' none "x") = [] :=
  ⟨by simp, C4_empty_domain_aborts.2 [0, 0] (-9999) none "x" (by simp)⟩

/-- C9 (counterexample): the explicit name `a.png.png` passes the slope
variant's `endswith` check unchanged, so the saved file name carries a
duplicate `.png` extension; and the depth/velocity variant does not
strip quoting, so the explicit name `"tr100"` keeps its double quotes
in the saved file name. -/
theorem C9_counterexample :
    slope_output_name (some "a.png.png") "x" = "a.png.png" ∧
    py_ends_with ".png" ((slope_output_name (some "a.png.png") "x").dropRight 4) = true ∧
    amenaza_output_name (some "\"tr100\"") 'v' "x" = "\"tr100\".png" := by
  refine ⟨by decide, by decide, by decide⟩

/-- C9 (amended): when no explicit name is supplied the saved name is
`<kind-prefix>_<input-stem>.png`; when an explicit name is supplied it
is trimmed of surrounding whitespace (the slope variant also strips
quotes, the depth/velocity variant does not) and the result always ends
with `.png` (for the slope variant, case-insensitively), though a
duplicate extension already present in an explicit name can survive in
the slope variant. -/
theorem C9_output_name_normalization :
    (∀ stem : String,
      amenaza_output_name none 'v' stem = "mapa_velocidad_" ++ stem ++ ".png" ∧
      amenaza_output_name none 'p' stem = "mapa_profundidad_" ++ stem ++ ".png") ∧
    (∀ stem : String,
      py_ends_with ".png" (py_lower ("mapa_pendiente_" ++ stem)) = false →
      slope_output_name none stem = "mapa_pendiente_" ++ stem ++ ".png") ∧
    (∀ (tipoMapa : Char) (n stem : String),
      py_ends_with ".png" (amenaza_output_name (some n) tipoMapa stem) = true) ∧
    (∀ n stem : String,
      py_ends_with ".png" (py_lower (slope_output_name (some n) stem)) = true) := by
  have hsuf : ∀ x : String, py_ends_with ".png" (x ++ ".png") = true := by
    intro x
    simp only [py_ends_with, String.data_append]
    exact List.isSuffixOf_iff_suffix.mpr (List.suffix_append _ _)
  have hlow : ∀ x : String, py_ends_with ".png" (py_lower (x ++ ".png")) = true := by
    intro x
    simp only [py_ends_with, py_lower, String.data_append, List.map_append]
    refine List.isSuffixOf_iff_suffix.mpr ?_
    have hfix : List.map Char.toLower ".png".data = ".png".data := by decide
    rw [hfix]
    exact List.suffix_append _ _
  refine ⟨fun stem => ⟨rfl, rfl⟩, fun stem h => ?_, fun tipoMapa n stem => ?_,
    fun n stem => ?_⟩
  · show slope_output_name none stem = ("mapa_pendiente_" ++ stem) ++ ".png"
    unfold slope_output_name
    have hb : slope_base_name none stem = "mapa_pendiente_" ++ stem := rfl
    rw [hb, h]
    simp
  · show py_ends_with ".png"
      (if n = "" then amenaza_auto_name tipoMapa stem
       else py_replace ".png" "" (py_trim n) ++ ".png") = true
    by_cases hn : n = ""
    · rw [if_pos hn]
      exact hsuf _
    · rw [if_neg hn]
      exact hsuf _
  · unfold slope_output_name
    by_cases hc : py_ends_with ".png" (py_lower (slope_base_name (some n) stem)) = true
    · rw [if_pos hc]
      exact hc
    · rw [if_neg hc]
      exact hlow _

/-- C9 (witness): with no explicit name and input stem `dem`, the slope
variant saves `mapa_pendiente_dem.png`. -/
theorem C9_witness :
    py_ends_with ".png" (py_lower ("mapa_pendiente_" ++ "dem")) = false ∧
    slope_output_name none "dem" = "mapa_pendiente_" ++ "dem" ++ ".png" :=
  ⟨by decide, C9_output_name_normalization.2.1 "dem" (by decide)⟩

/-- Affine geotransform in the rasterio convention: pixel `(col, row)`
maps to world coordinates `(a*col + b*row + c, d*col + e*row + f)`. -/
structure Affine where
  a : ℚ
  b : ℚ
  c : ℚ
  d : ℚ
  e : ℚ
  f : ℚ
deriving DecidableEq, Repr

/-- Composition `T * U` of two affine geotransforms (3 by 3 matrix
product restricted to the affine rows), as in the affine library used
by rasterio. -/
def Affine.mul (T U : Affine) : Affine :=
  ⟨T.a * U.a + T.b * U.d, T.a * U.b + T.b * U.e, T.a * U.c + T.b * U.f + T.c,
   T.d * U.a + T.e * U.d, T.d * U.b + T.e * U.e, T.d * U.c + T.e * U.f + T.f⟩

/-- `rasterio.Affine.scale(sx, sy)`. -/
def Affine.scale (sx sy : ℚ) : Affine := ⟨sx, 0, 0, 0, sy, 0⟩

/-- Apply a geotransform to pixel coordinates. -/
def Affine.applyT (T : Affine) (col row : ℚ) : ℚ × ℚ :=
  (T.a * col + T.b * row + T.c, T.d * col + T.e * row + T.f)

/-- `scale_x = src.width / new_width` (`slope_plot.py` line 51). -/
def slope_scale_x (w h B : ℕ) : ℚ := (w : ℚ) / ((new_shape_slope w h B).2 : ℚ)

/-- `scale_y = src.height / new_height` (`slope_plot.py` line 52). -/
def slope_scale_y (w h B : ℕ) : ℚ := (h : ℚ) / ((new_shape_slope w h B).1 : ℚ)

/-- `transform = src.transform * Affine.scale(scale_x, scale_y)`
(`slope_plot.py` line 53). -/
def slope_transform (T : Affine) (w h B : ℕ) : Affine :=
  T.mul (Affine.scale (slope_scale_x w h B) (slope_scale_y w h B))

/-- `xres = transform.a` (`slope_plot.py` line 54). -/
def slope_xres (T : Affine) (w h B : ℕ) : ℚ := (slope_transform T w h B).a

/-- `yres = abs(transform.e)` (`slope_plot.py` line 55). -/
def slope_yres (T : Affine) (w h B : ℕ) : ℚ := |(slope_transform T w h B).e|

/-- Hillshade gradient spacing used by `visualizar_dem_con_satelite`
(`main.py` line 89): `ls.shade(..., dx=scale, dy=scale)` hands the bare
decimation factor, in pixel units, to the shading gradient. -/
def main_shade_dx (w h B : ℕ) : ℚ := (scale_main w h B : ℚ)

/-- Ground width of one cell of the resampled elevation grid, derived
from the source geotransform: the source cell size scaled by the ratio
of source width to resampled width. -/
def resampled_cell_x (T : Affine) (w h B : ℕ) : ℚ :=
  T.a * ((w : ℚ) / ((new_shape_main w h B).2 : ℚ))

/-- C6 (counterexample): for a 5000 by 100 source with 10 m cells the
elevation variant decimates by factor 2 and the resampled ground cell
is 20 m wide, but the spacing handed to the hillshade gradient in
`main.py` is the decimation factor 2 — pixel units, not ground
distance. -/
theorem C6_counterexample :
    main_shade_dx 5000 100 2000 = 2 ∧
    resampled_cell_x ⟨10, 0, 0, 0, -10, 0⟩ 5000 100 2000 = 20 ∧
    main_shade_dx 5000 100 2000 ≠ resampled_cell_x ⟨10, 0, 0, 0, -10, 0⟩ 5000 100 2000 := by
  have hscale : scale_main 5000 100 2000 = 2 := by
    unfold scale_main
    rw [if_pos]
    · rfl
    · left
      norm_num
  have hdx : main_shade_dx 5000 100 2000 = 2 := by
    unfold main_shade_dx
    rw [hscale]
    norm_num
  have hnw : (new_shape_main 5000 100 2000).2 = 2500 := by
    unfold new_shape_main
    rw [hscale]
  have hcell : resampled_cell_x ⟨10, 0, 0, 0, -10, 0⟩ 5000 100 2000 = 20 := by
    unfold resampled_cell_x
    rw [hnw]
    norm_num
  refine ⟨hdx, hcell, ?_⟩
  rw [hdx, hcell]
  norm_num

/-- C6 (amended): in the slope variant the adjusted geotransform maps
the resampled grid onto exactly the source's ground extent (both the
origin corner and the opposite corner agree), and the cell sizes the
slope gradient consumes are the adjusted ground resolutions; the
elevation variant instead hands the hillshade the decimation factor in
pixel units. -/
theorem C6_ground_extent_preserved (T : Affine) (w h B : ℕ) :
    (slope_transform T w h B).applyT ((new_shape_slope w h B).2 : ℚ)
        ((new_shape_slope w h B).1 : ℚ) = T.applyT (w : ℚ) (h : ℚ) ∧
    (slope_transform T w h B).applyT 0 0 = T.applyT 0 0 ∧
    slope_xres T w h B = T.a * slope_scale_x w h B ∧
    slope_yres T w h B = |T.e * slope_scale_y w h B| ∧
    main_shade_dx w h B = (scale_main w h B : ℚ) := by
  have hW : (((new_shape_slope w h B).2 : ℕ) : ℚ) ≠ 0 := by
    have h1 : 1 ≤ (new_shape_slope w h B).2 := le_max_left 1 _
    exact Nat.cast_ne_zero.mpr (by omega)
  have hH : (((new_shape_slope w h B).1 : ℕ) : ℚ) ≠ 0 := by
    have h1 : 1 ≤ (new_shape_slope w h B).1 := le_max_left 1 _
    exact Nat.cast_ne_zero.mpr (by omega)
  refine ⟨?_, ?_, ?_, ?_, rfl⟩
  · simp only [slope_transform, Affine.mul, Affine.scale, Affine.applyT,
      slope_scale_x, slope_scale_y, Prod.mk.injEq]
    refine ⟨?_, ?_⟩ <;> (field_simp; try ring)
  · simp only [slope_transform, Affine.mul, Affine.scale, Affine.applyT,
      Prod.mk.injEq]
    refine ⟨?_, ?_⟩ <;> ring
  · simp only [slope_xres, slope_transform, Affine.mul, Affine.scale]
    ring
  · simp only [slope_yres, slope_transform, Affine.mul, Affine.scale]
    ring_nf

/-- NaN-propagating binary operation on optional rationals: `none`
models a float NaN, and any arithmetic involving NaN yields NaN. -/
def onan2 (g : ℚ → ℚ → ℚ) : Option ℚ → Option ℚ → Option ℚ
  | some x, some y => some (g x y)
  | _, _ => none

/-- One axis of `numpy.gradient` with the default `edge_order=1`:
second-order centered differences at interior samples, first-order
one-sided differences at the two boundary samples; `numpy` rejects an
axis with fewer than two samples. -/
def np_gradient1 (f : ℕ → Option ℚ) (n : ℕ) (spacing : ℚ) (i : ℕ) : Option ℚ :=
  if n < 2 then none
  else if i = 0 then onan2 (fun x y => (x - y) / spacing) (f 1) (f 0)
  else if i = n - 1 then onan2 (fun x y => (x - y) / spacing) (f (n - 1)) (f (n - 2))
  else onan2 (fun x y => (x - y) / (2 * spacing)) (f (i + 1)) (f (i - 1))

/-- Row-direction derivative `dz_dy` of
`np.gradient(elevacion, yres, xres)` (`slope_plot.py` line 66): axis 0
with spacing `yres`. -/
def dz_dy (z : ℕ → ℕ → Option ℚ) (m : ℕ) (yres : ℚ) (i j : ℕ) : Option ℚ :=
  np_gradient1 (fun k => z k j) m yres i

/-- Column-direction derivative `dz_dx` of
`np.gradient(elevacion, yres, xres)` (`slope_plot.py` line 66): axis 1
with spacing `xres`. -/
def dz_dx (z : ℕ → ℕ → Option ℚ) (n : ℕ) (xres : ℚ) (i j : ℕ) : Option ℚ :=
  np_gradient1 (fun k => z i k) n xres j

/-- Squared-gradient magnitude `dz_dx**2 + dz_dy**2` at a cell; the
exact rational part of the slope computation of `slope_plot.py`
line 67. -/
def pendiente_sq (z : ℕ → ℕ → Option ℚ) (m n : ℕ) (yres xres : ℚ)
    (i j : ℕ) : Option ℚ :=
  onan2 (fun gx gy => gx ^ 2 + gy ^ 2) (dz_dx z n xres i j) (dz_dy z m yres i j)

/-- Slope-percent field of `visualizar_pendiente_con_satelite_suave`
(`slope_plot.py` line 67): `pendiente = np.sqrt(dz_dx**2 + dz_dy**2) * 100.0`.
The square root lives in `ℝ`, everything before it is exact. -/
noncomputable def pendiente (z : ℕ → ℕ → Option ℚ) (m n : ℕ) (yres xres : ℚ)
    (i j : ℕ) : Option ℝ :=
  (pendiente_sq z m n yres xres i j).map fun s : ℚ => Real.sqrt ((s : ℚ) : ℝ) * 100

/-- C5: at every interior cell the slope field equals
`100 * sqrt((dz/dx)^2 + (dz/dy)^2)` with centered differences over the
per-axis ground resolutions, which may differ in x and y. -/
theorem C5_slope_centered_difference (z : ℕ → ℕ → Option ℚ) (m n : ℕ)
    (yres xres : ℚ) (i j : ℕ) (a b cc d : ℚ)
    (hi0 : 0 < i) (hi1 : i + 1 < m) (hj0 : 0 < j) (hj1 : j + 1 < n)
    (hW : z i (j - 1) = some a) (hE : z i (j + 1) = some b)
    (hN : z (i - 1) j = some cc) (hS : z (i + 1) j = some d) :
    pendiente z m n yres xres i j =
      some (100 * Real.sqrt ((((b : ℝ) - (a : ℝ)) / (2 * (xres : ℝ))) ^ 2 +
        (((d : ℝ) - (cc : ℝ)) / (2 * (yres : ℝ))) ^ 2)) := by
  have h1 : ¬ n < 2 := by omega
  have h2 : j ≠ 0 := by omega
  have h3 : j ≠ n - 1 := by omega
  have h4 : ¬ m < 2 := by omega
  have h5 : i ≠ 0 := by omega
  have h6 : i ≠ m - 1 := by omega
  have hsq : pendiente_sq z m n yres xres i j =
      some (((b - a) / (2 * xres)) ^ 2 + ((d - cc) / (2 * yres)) ^ 2) := by
    unfold pendiente_sq dz_dx dz_dy np_gradient1
    rw [if_neg h1, if_neg h2, if_neg h3, if_neg h4, if_neg h5, if_neg h6]
    simp only [hE, hW, hS, hN, onan2]
  unfold pendiente
  rw [hsq, Option.map_some']
  have harg : ((((b - a) / (2 * xres)) ^ 2 + ((d - cc) / (2 * yres)) ^ 2 : ℚ) : ℝ) =
      (((b : ℝ) - (a : ℝ)) / (2 * (xres : ℝ))) ^ 2 +
        (((d : ℝ) - (cc : ℝ)) / (2 * (yres : ℝ))) ^ 2 := by
    push_cast
    ring
  rw [harg, mul_comm]

/-- Concrete 3 by 3 elevation sheet with constant gradient 3 eastward
and 4 southward. -/
def zdemo : ℕ → ℕ → Option ℚ := fun i j => some (4 * (i : ℚ) + 3 * (j : ℚ))

/-- C5 (witness): on the concrete sheet, the center cell's slope is
`100 * sqrt(3^2 + 4^2)` with unit ground resolution. -/
theorem C5_witness :
    pendiente zdemo 3 3 1 1 1 1 =
      some (100 * Real.sqrt (((((10 : ℚ) : ℝ) - ((4 : ℚ) : ℝ)) / (2 * ((1 : ℚ) : ℝ))) ^ 2 +
        ((((11 : ℚ) : ℝ) - ((3 : ℚ) : ℝ)) / (2 * ((1 : ℚ) : ℝ))) ^ 2)) :=
  C5_slope_centered_difference zdemo 3 3 1 1 1 1 4 10 3 11
    (by norm_num) (by norm_num) (by norm_num) (by norm_num)
    (by norm_num [zdemo]) (by norm_num [zdemo]) (by norm_num [zdemo])
    (by norm_num [zdemo])

/-- Value stored in the auxiliary slope raster (`slope_plot.py` lines
74-75): NaN slope cells become -9999.0
(`pendiente_raster[np.isnan(pendiente_raster)] = -9999.0`), every
other cell keeps its slope value. -/
noncomputable def pendiente_raster_cell (z : ℕ → ℕ → Option ℚ) (m n : ℕ)
    (yres xres : ℚ) (i j : ℕ) : ℝ :=
  match pendiente z m n yres xres i j with
  | none => -9999
  | some x => x

/-- The auxiliary single-band slope raster as written. -/
structure SlopeRasterOut where
  crs : String
  transform : Affine
  nodata : ℚ
  cell : ℕ → ℕ → ℝ

/-- Shallow embedding of the `rasterio.open(..., "w", ...)` call of
`slope_plot.py` lines 76-89: the raster is written with the source
CRS, the decimation-adjusted transform of line 53, nodata -9999.0, and
the slope band with NaN replaced by -9999.0. -/
noncomputable def slope_raster_out (crs : String) (T : Affine) (w h B : ℕ)
    (z : ℕ → ℕ → Option ℚ) : SlopeRasterOut :=
  { crs := crs
    transform := slope_transform T w h B
    nodata := -9999
    cell := pendiente_raster_cell z (new_shape_slope w h B).1
      (new_shape_slope w h B).2 (slope_yres T w h B) (slope_xres T w h B) }

/-- A defined (non-NaN) slope value is a square root times 100, hence
nonnegative — in particular never the nodata sentinel -9999. -/
theorem pendiente_nonneg (z : ℕ → ℕ → Option ℚ) (m n : ℕ) (yres xres : ℚ)
    (i j : ℕ) (x : ℝ) (hx : pendiente z m n yres xres i j = some x) :
    0 ≤ x := by
  unfold pendiente at hx
  rcases hs : pendiente_sq z m n yres xres i j with _ | s
  · rw [hs] at hx
    simp at hx
  · rw [hs, Option.map_some'] at hx
    simp only [Option.some.injEq] at hx
    rw [← hx]
    positivity

/-- Small raster whose center elevation is NaN while every neighbor
is valid; around the center the sheet has gradient 3 eastward and 4
southward. -/
def zC8 : ℕ → ℕ → Option ℚ := fun i j =>
  if i = 1 ∧ j = 1 then none else some (4 * (i : ℚ) + 3 * (j : ℚ))

theorem new_shape_slope_eval_3 : new_shape_slope 3 3 2000 = (3, 3) := by
  unfold new_shape_slope scale_main
  rw [if_neg (by norm_num)]
  decide

theorem slope_res_eval_3 :
    slope_xres ⟨1, 0, 0, 0, -1, 0⟩ 3 3 2000 = 1 ∧
    slope_yres ⟨1, 0, 0, 0, -1, 0⟩ 3 3 2000 = 1 := by
  unfold slope_xres slope_yres slope_transform slope_scale_x slope_scale_y
  rw [new_shape_slope_eval_3]
  norm_num [Affine.mul, Affine.scale]

/-- C8 (counterexample): the auxiliary slope raster is not written
with the input's transform — for a 5000 by 100 source with 10 m cells
the written transform has 20 m cells; and a cell whose own elevation
was invalid is not stored as -9999 — on the 3 by 3 raster with an
invalid center, centered differences use only the four valid
neighbors, so the center stores the finite slope 500. -/
theorem C8_counterexample :
    (slope_raster_out "EPSG:9377" ⟨10, 0, 0, 0, -10, 0⟩ 5000 100 2000 zC8).transform ≠
      (⟨10, 0, 0, 0, -10, 0⟩ : Affine) ∧
    zC8 1 1 = none ∧
    (slope_raster_out "EPSG:9377" ⟨1, 0, 0, 0, -1, 0⟩ 3 3 2000 zC8).cell 1 1 = 500 ∧
    (500 : ℝ) ≠ -9999 := by
  have hscale : scale_main 5000 100 2000 = 2 := by
    unfold scale_main
    rw [if_pos (by left; norm_num)]
    decide
  have hsx : (new_shape_slope 5000 100 2000).2 = 2500 := by
    unfold new_shape_slope
    rw [hscale]
    decide
  have ha : (slope_raster_out "EPSG:9377" ⟨10, 0, 0, 0, -10, 0⟩ 5000 100 2000 zC8).transform.a = 20 := by
    show (slope_transform ⟨10, 0, 0, 0, -10, 0⟩ 5000 100 2000).a = 20
    unfold slope_transform slope_scale_x slope_scale_y
    rw [hsx]
    norm_num [Affine.mul, Affine.scale]
  refine ⟨?_, ?_, ?_, by norm_num⟩
  · intro heq
    rw [heq] at ha
    norm_num at ha
  · simp [zC8]
  · have hsq : pendiente_sq zC8 3 3 1 1 1 1 = some 25 := by
      unfold pendiente_sq dz_dx dz_dy np_gradient1 zC8
      norm_num [onan2]
    have hpend : pendiente zC8 3 3 1 1 1 1 = some 500 := by
      unfold pendiente
      rw [hsq, Option.map_some']
      have h25 : Real.sqrt ((25 : ℚ) : ℝ) = 5 := by
        rw [show ((25 : ℚ) : ℝ) = (5 : ℝ) ^ 2 by norm_num]
        exact Real.sqrt_sq (by norm_num)
      rw [h25]
      norm_num
    show pendiente_raster_cell zC8 (new_shape_slope 3 3 2000).1
      (new_shape_slope 3 3 2000).2 (slope_yres ⟨1, 0, 0, 0, -1, 0⟩ 3 3 2000)
      (slope_xres ⟨1, 0, 0, 0, -1, 0⟩ 3 3 2000) 1 1 = 500
    rw [new_shape_slope_eval_3, slope_res_eval_3.1, slope_res_eval_3.2]
    unfold pendiente_raster_cell
    rw [hpend]

/-- C8 (amended): the auxiliary slope raster carries the source CRS,
nodata -9999, and the decimation-adjusted transform — identical to the
input's transform exactly when no decimation occurred — and a cell
stores -9999 exactly when its computed slope is NaN. -/
theorem C8_slope_raster_contract (crs : String) (T : Affine) (w h B : ℕ)
    (z : ℕ → ℕ → Option ℚ) :
    (slope_raster_out crs T w h B z).crs = crs ∧
    (slope_raster_out crs T w h B z).nodata = -9999 ∧
    (slope_raster_out crs T w h B z).transform = slope_transform T w h B ∧
    ((new_shape_slope w h B).2 = w → (new_shape_slope w h B).1 = h →
      (slope_raster_out crs T w h B z).transform = T) ∧
    (∀ i j, (slope_raster_out crs T w h B z).cell i j = -9999 ↔
      pendiente z (new_shape_slope w h B).1 (new_shape_slope w h B).2
        (slope_yres T w h B) (slope_xres T w h B) i j = none) := by
  refine ⟨rfl, rfl, rfl, ?_, ?_⟩
  · intro hw2 hh1
    have hw1 : 1 ≤ (new_shape_slope w h B).2 := le_max_left 1 _
    have hh2 : 1 ≤ (new_shape_slope w h B).1 := le_max_left 1 _
    have hwq : (w : ℚ) ≠ 0 := Nat.cast_ne_zero.mpr (by omega)
    have hhq : (h : ℚ) ≠ 0 := Nat.cast_ne_zero.mpr (by omega)
    show slope_transform T w h B = T
    unfold slope_transform slope_scale_x slope_scale_y
    rw [hw2, hh1, div_self hwq, div_self hhq]
    obtain ⟨ta, tb, tc, td, te, tf⟩ := T
    simp [Affine.mul, Affine.scale]
  · intro i j
    constructor
    · intro hcell
      by_contra hne
      rcases Option.ne_none_iff_exists'.mp hne with ⟨x, hx⟩
      have hx0 : 0 ≤ x := pendiente_nonneg _ _ _ _ _ _ _ _ hx
      have hval : (slope_raster_out crs T w h B z).cell i j = x := by
        show pendiente_raster_cell z (new_shape_slope w h B).1
          (new_shape_slope w h B).2 (slope_yres T w h B) (slope_xres T w h B) i j = x
        unfold pendiente_raster_cell
        rw [hx]
      rw [hval] at hcell
      linarith
    · intro hnone
      show pendiente_raster_cell z (new_shape_slope w h B).1
        (new_shape_slope w h B).2 (slope_yres T w h B) (slope_xres T w h B) i j = -9999
      unfold pendiente_raster_cell
      rw [hnone]

/-- C8 (witness): an undecimated 3 by 3 source keeps its own transform
in the auxiliary raster. -/
theorem C8_witness :
    (new_shape_slope 3 3 2000).2 = 3 ∧ (new_shape_slope 3 3 2000).1 = 3 ∧
    (slope_raster_out "EPSG:9377" ⟨1, 0, 0, 0, -1, 0⟩ 3 3 2000 zdemo).transform =
      (⟨1, 0, 0, 0, -1, 0⟩ : Affine) :=
  ⟨by rw [new_shape_slope_eval_3], by rw [new_shape_slope_eval_3],
    (C8_slope_raster_contract "EPSG:9377" ⟨1, 0, 0, 0, -1, 0⟩ 3 3 2000 zdemo).2.2.2.1
      (by rw [new_shape_slope_eval_3]) (by rw [new_shape_slope_eval_3])⟩

/-- Modelled from the spec: the fixed ascending per-domain danger
thresholds of the categorical color-scale mode (`build_categorical`),
whose implementation is not present under `src/`: velocity 0, 0.5,
1.0, 2.0 and depth 0, 0.3, 0.8, 1.5, each followed by an open-ended
top bucket. -/
def categorical_thresholds (tipoMapa : Char) : List ℚ :=
  if tipoMapa = 'v' then [0, 0.5, 1, 2] else [0, 0.3, 0.8, 1.5]

/-- Modelled from the spec: the open-ended top boundary
`max(domain_ceiling, observed_max + 1)`; the numeric value of the
per-domain ceiling is not fixed by the spec, so it stays a parameter. -/
def categorical_top (ceiling obsMax : ℚ) : ℚ := max ceiling (obsMax + 1)

/-- Modelled from the spec: the boundary list of `build_categorical` —
the fixed thresholds followed by the open-ended top boundary. -/
def categorical_boundaries (tipoMapa : Char) (ceiling obsMax : ℚ) : List ℚ :=
  categorical_thresholds tipoMapa ++ [categorical_top ceiling obsMax]

/-- Modelled from the spec: one solid color per bucket; the spec fixes
the count (one per bucket), not the color values. -/
def categorical_colors (tipoMapa : Char) : List String :=
  if tipoMapa = 'v' then ["#00e5ff", "#00c853", "#ffd600", "#d50000"]
  else ["#29b6f6", "#fff176", "#ff9800", "#b71c1c"]

/-- Modelled from the spec: bucket assignment over half-open intervals
`[b_i, b_i+1)` — the index is one less than the number of boundaries
at most `v`, so a value exactly on a boundary belongs to the upper
bucket. -/
def bucket_index (bs : List ℚ) (v : ℚ) : ℕ :=
  (bs.countP fun b => decide (b ≤ v)) - 1

/-- Counting the boundaries at most `v` when the first `k` are at most
`v` and the rest exceed it. -/
theorem countP_between (bs : List ℚ) (v : ℚ) (k : ℕ) (hk : k ≤ bs.length)
    (hle : ∀ x ∈ bs.take k, x ≤ v) (hgt : ∀ x ∈ bs.drop k, v < x) :
    (bs.countP fun b => decide (b ≤ v)) = k := by
  have hsplit : bs = bs.take k ++ bs.drop k := (List.take_append_drop k bs).symm
  rw [hsplit, List.countP_append]
  have h1 : ((bs.take k).countP fun b => decide (b ≤ v)) = (bs.take k).length := by
    apply List.countP_eq_length.mpr
    intro a ha
    exact decide_eq_true (hle a ha)
  have h2 : ((bs.drop k).countP fun b => decide (b ≤ v)) = 0 := by
    apply List.countP_eq_zero.mpr
    intro a ha
    simp only [decide_eq_true_eq]
    exact not_le_of_lt (hgt a ha)
  rw [h1, h2, List.length_take]
  omega

theorem bucket_index_between (bs : List ℚ) (v : ℚ) (k : ℕ) (hk : k ≤ bs.length)
    (hle : ∀ x ∈ bs.take k, x ≤ v) (hgt : ∀ x ∈ bs.drop k, v < x) :
    bucket_index bs v = k - 1 := by
  unfold bucket_index
  rw [countP_between bs v k hk hle hgt]

/-- C7 (spec-modelled): `build_categorical` has the claimed fixed
ascending thresholds per domain, one color per bucket, an open-ended
top boundary `max(domain_ceiling, observed_max + 1)`, and half-open
buckets in which a value exactly on a boundary belongs to the upper
bucket; strict ascent of the boundary list needs the domain ceiling to
exceed the last finite threshold. -/
theorem C7_categorical_scale :
    (categorical_thresholds 'v' = [0, 0.5, 1, 2] ∧
     categorical_thresholds 'p' = [0, 0.3, 0.8, 1.5]) ∧
    (∀ (tipoMapa : Char) (ceiling obsMax : ℚ),
      (categorical_boundaries tipoMapa ceiling obsMax).getLast? =
        some (max ceiling (obsMax + 1)) ∧
      (categorical_colors tipoMapa).length + 1 =
        (categorical_boundaries tipoMapa ceiling obsMax).length) ∧
    (∀ ceiling obsMax : ℚ, 2 < ceiling →
      (categorical_boundaries 'v' ceiling obsMax).Chain' (· < ·) ∧
      ∀ v : ℚ,
        (0 ≤ v → v < 0.5 →
          bucket_index (categorical_boundaries 'v' ceiling obsMax) v = 0) ∧
        (0.5 ≤ v → v < 1 →
          bucket_index (categorical_boundaries 'v' ceiling obsMax) v = 1) ∧
        (1 ≤ v → v < 2 →
          bucket_index (categorical_boundaries 'v' ceiling obsMax) v = 2) ∧
        (2 ≤ v → v < categorical_top ceiling obsMax →
          bucket_index (categorical_boundaries 'v' ceiling obsMax) v = 3)) ∧
    (∀ ceiling obsMax : ℚ, 1.5 < ceiling →
      (categorical_boundaries 'p' ceiling obsMax).Chain' (· < ·) ∧
      ∀ v : ℚ,
        (0 ≤ v → v < 0.3 →
          bucket_index (categorical_boundaries 'p' ceiling obsMax) v = 0) ∧
        (0.3 ≤ v → v < 0.8 →
          bucket_index (categorical_boundaries 'p' ceiling obsMax) v = 1) ∧
        (0.8 ≤ v → v < 1.5 →
          bucket_index (categorical_boundaries 'p' ceiling obsMax) v = 2) ∧
        (1.5 ≤ v → v < categorical_top ceiling obsMax →
          bucket_index (categorical_boundaries 'p' ceiling obsMax) v = 3)) := by
  have hbv : ∀ ceiling obsMax : ℚ, categorical_boundaries 'v' ceiling obsMax =
      [0, 0.5, 1, 2, max ceiling (obsMax + 1)] := by
    intro c o
    rfl
  have hbp : ∀ ceiling obsMax : ℚ, categorical_boundaries 'p' ceiling obsMax =
      [0, 0.3, 0.8, 1.5, max ceiling (obsMax + 1)] := by
    intro c o
    rfl
  refine ⟨⟨rfl, rfl⟩, ?_, ?_, ?_⟩
  · intro tipoMapa c o
    unfold categorical_boundaries categorical_thresholds categorical_colors categorical_top
    by_cases ht : tipoMapa = 'v' <;> simp [ht]
  · intro c o hc
    have htop : (2 : ℚ) < max c (o + 1) := lt_max_iff.mpr (Or.inl hc)
    constructor
    · rw [hbv c o]
      refine List.chain'_cons.mpr ⟨by norm_num, ?_⟩
      refine List.chain'_cons.mpr ⟨by norm_num, ?_⟩
      refine List.chain'_cons.mpr ⟨by norm_num, ?_⟩
      exact List.chain'_cons.mpr ⟨htop, List.chain'_singleton _⟩
    · intro v
      refine ⟨fun h1 h2 => ?_, fun h1 h2 => ?_, fun h1 h2 => ?_, fun h1 h2 => ?_⟩
      · rw [hbv c o, bucket_index_between _ v 1 (by norm_num) ?_ ?_]
        · intro x hx
          simp at hx
          linarith [hx]
        · intro x hx
          simp at hx
          rcases hx with hx | hx | hx | hx <;> subst hx <;> linarith
      · rw [hbv c o, bucket_index_between _ v 2 (by norm_num) ?_ ?_]
        · intro x hx
          simp at hx
          rcases hx with hx | hx <;> subst hx <;> linarith
        · intro x hx
          simp at hx
          rcases hx with hx | hx | hx <;> subst hx <;> linarith
      · rw [hbv c o, bucket_index_between _ v 3 (by norm_num) ?_ ?_]
        · intro x hx
          simp at hx
          rcases hx with hx | hx | hx <;> subst hx <;> linarith
        · intro x hx
          simp at hx
          rcases hx with hx | hx <;> subst hx <;> linarith
      · rw [hbv c o, bucket_index_between _ v 4 (by norm_num) ?_ ?_]
        · intro x hx
          simp at hx
          rcases hx with hx | hx | hx | hx <;> subst hx <;> linarith
        · intro x hx
          simp at hx
          subst hx
          exact h2
  · intro c o hc
    have htop : (1.5 : ℚ) < max c (o + 1) := lt_max_iff.mpr (Or.inl hc)
    constructor
    · rw [hbp c o]
      refine List.chain'_cons.mpr ⟨by norm_num, ?_⟩
      refine List.chain'_cons.mpr ⟨by norm_num, ?_⟩
      refine List.chain'_cons.mpr ⟨by norm_num, ?_⟩
      exact List.chain'_cons.mpr ⟨htop, List.chain'_singleton _⟩
    · intro v
      refine ⟨fun h1 h2 => ?_, fun h1 h2 => ?_, fun h1 h2 => ?_, fun h1 h2 => ?_⟩
      · rw [hbp c o, bucket_index_between _ v 1 (by norm_num) ?_ ?_]
        · intro x hx
          simp at hx
          linarith [hx]
        · intro x hx
          simp at hx
          rcases hx with hx | hx | hx | hx <;> subst hx <;> linarith
      · rw [hbp c o, bucket_index_between _ v 2 (by norm_num) ?_ ?_]
        · intro x hx
          simp at hx
          rcases hx with hx | hx <;> subst hx <;> linarith
        · intro x hx
          simp at hx
          rcases hx with hx | hx | hx <;> subst hx <;> linarith
      · rw [hbp c o, bucket_index_between _ v 3 (by norm_num) ?_ ?_]
        · intro x hx
          simp at hx
          rcases hx with hx | hx | hx <;> subst hx <;> linarith
        · intro x hx
          simp at hx
          rcases hx with hx | hx <;> subst hx <;> linarith
      · rw [hbp c o, bucket_index_between _ v 4 (by norm_num) ?_ ?_]
        · intro x hx
          simp at hx
          rcases hx with hx | hx | hx | hx <;> subst hx <;> linarith
        · intro x hx
          simp at hx
          subst hx
          exact h2

/-- C7 (witness): a depth raster with observed maximum 0.45 and
ceiling 3 assigns the value 0.45 to bucket 1 (the 0.3 to 0.8 bucket),
and its top boundary is `max(3, 1.45)`. -/
theorem C7_witness :
    (1.5 : ℚ) < 3 ∧ (0.3 : ℚ) ≤ 0.45 ∧ (0.45 : ℚ) < 0.8 ∧
    bucket_index (categorical_boundaries 'p' 3 0.45) 0.45 = 1 :=
  ⟨by norm_num, by norm_num, by norm_num,
    (((C7_categorical_scale.2.2.2 3 0.45 (by norm_num)).2 0.45).2.1
      (by norm_num) (by norm_num))⟩

end PrintDem
